import Mathlib

/-!
Verification of the core logic of the YouTube Command Center dashboard
(`app.py`, `app1.py`, `app2.py`): the market-data aggregation and scoring
pipeline (`get_market_data`) and the AI content-strategy engine
(`ai_content_engine`), together with the tag-frequency logic
(`Counter(all_tags).most_common(limit)`).

Modelling conventions:
* Python numbers are modelled by exact rationals (`ℚ`); integer counts by `ℕ`.
* `round(x, 2)` / pandas `.round(0)` are modelled by round-half-to-even
  (`rhe`), the rounding rule of Python's `round` and numpy's `round`.
* The IEEE-754 float division `0.0 / 0.0 = NaN` that `get_market_data`
  performs when every raw virality score is zero is modelled by `Option ℚ`:
  `none` stands for the NaN produced in that degenerate case, `some q`
  for an ordinary numeric score.
* Python exceptions are modelled by `Except String`: a provider that raises
  returns `Except.error`, and a modelled function that lets an exception
  propagate has an `Except` result type itself.
-/

/-- Round-half-to-even on rationals: the rounding rule used by Python's
built-in `round` and by numpy / pandas `.round`. -/
def rhe (q : ℚ) : ℤ :=
  if q - q.floor < 1/2 then q.floor
  else if 1/2 < q - q.floor then q.floor + 1
  else if q.floor % 2 = 0 then q.floor else q.floor + 1

/-- `Rat.floor` agrees with the floor of the archimedean order structure. -/
theorem ratFloor_eq_floor (q : ℚ) : q.floor = ⌊q⌋ := by
  rw [Rat.floor_def', Rat.floor_def]

/-- Python `round(x, 2)` on the modelled rationals. -/
def round2 (q : ℚ) : ℚ := (rhe (q * 100) : ℚ) / 100

/-- pandas `.round(0)` on the modelled rationals. -/
def round0 (q : ℚ) : ℚ := (rhe q : ℚ)

/-- One item of the YouTube `videos().list` response, as read by
`get_market_data`: `item['id']`, `snippet['title']`, the statistics
(`stats.get('viewCount', 0)` etc., absent fields modelled by `none`),
`snippet.get('tags', [])`, the thumbnail URL and `snippet['publishedAt']`. -/
structure ApiItem where
  id : String
  title : String
  viewCount : Option ℕ
  likeCount : Option ℕ
  commentCount : Option ℕ
  tags : List String
  thumbnailUrl : String
  publishedAt : String
deriving DecidableEq

/-- One row of the DataFrame built inside the per-item loop of
`get_market_data` (before the `Virality Score` column is added). -/
structure ScoredVideo where
  video_id : String
  thumbnail : String
  title : String
  views : ℕ
  likes : ℕ
  comments : ℕ
  engagement : ℚ
  earnings : ℚ
  virality_raw : ℚ
  link : String
  published : String
  tags : List String
deriving DecidableEq

/-- A row after the normalization step added the `Virality Score` column.
`virality_score = none` models the float NaN that the pandas expression
`(df['Virality Raw'] / df['Virality Raw'].max()) * 100` produces for every
row when the column maximum is `0.0` (`0.0 / 0.0 = NaN`). -/
structure FinalVideo extends ScoredVideo where
  virality_score : Option ℚ
deriving DecidableEq

/-- The body of the `for item in stats_res.get('items', [])` loop of
`get_market_data`: extract the counts (absent counts default to 0), compute
`engagement`, `revenue` and the raw virality score, and build the row dict. -/
def scoreItem (rpm : ℚ) (item : ApiItem) : ScoredVideo :=
  let views := item.viewCount.getD 0
  let likes := item.likeCount.getD 0
  let comments := item.commentCount.getD 0
  let engagement : ℚ := if 0 < views then ((likes : ℚ) + (comments : ℚ)) / (views : ℚ) * 100 else 0
  let revenue : ℚ := (views : ℚ) / 1000 * rpm
  let raw_score : ℚ := (views : ℚ) * (1/2) + (likes : ℚ) * 50 + (comments : ℚ) * 100
  { video_id := item.id
    thumbnail := item.thumbnailUrl
    title := item.title
    views := views
    likes := likes
    comments := comments
    engagement := round2 engagement
    earnings := round2 revenue
    virality_raw := raw_score
    link := "https://www.youtube.com/watch?v=" ++ item.id
    published := item.publishedAt.take 10
    tags := item.tags }

/-- `df['Virality Raw'].max()`: the maximum of the raw-score column.  The
fold is seeded with 0; every raw score is nonnegative, so on a nonempty
column this equals the column maximum (and the seed is only reached for the
empty column, which the caller guards with `if not df.empty`). -/
def maxRaw (data : List ScoredVideo) : ℚ :=
  data.foldl (fun m v => max m v.virality_raw) 0

/-- The normalization step of `get_market_data`:
`if not df.empty: df['Virality Score'] = (df['Virality Raw'] / df['Virality Raw'].max()) * 100`
followed by `.round(0)`.  Only emptiness is guarded: when the maximum is
zero the division is still performed, and `0.0 / 0.0` is NaN (`none`). -/
def addScores (data : List ScoredVideo) : List FinalVideo :=
  if data.isEmpty then []
  else
    data.map fun v =>
      { toScoredVideo := v
        virality_score :=
          if maxRaw data = 0 then none
          else some (round0 (v.virality_raw / maxRaw data * 100)) }

/-- The `all_tags` accumulation of `get_market_data`:
`if tags: all_tags.extend(tags)` inside the per-item loop. -/
def collectTags (items : List ApiItem) : List String :=
  items.foldl (fun acc it => if it.tags.isEmpty then acc else acc ++ it.tags) []

/-- `get_market_data` (identical core in `app.py`, `app1.py` and `app2.py`):
score every response item in order, add the normalized virality column, and
return the rows together with the flattened tag list. -/
def get_market_data (rpm : ℚ) (items : List ApiItem) : List FinalVideo × List String :=
  (addScores (items.map (scoreItem rpm)), collectTags items)

/-! ## Tag frequencies

`tag_counts = Counter(all_tags).most_common(30)` in all three variants.
A Python `Counter` over a list maps each distinct element to its
multiplicity, iterating in insertion order, i.e. in order of first
occurrence; `most_common(n)` returns its items sorted by decreasing count
(a stable sort: ties keep first-occurrence order), truncated to `n`. -/

/-- The distinct elements of `l` in order of their first occurrence:
the iteration order of `Counter(l)` (a dict records each key when it is
first inserted). -/
def firstOccs (l : List String) : List String :=
  l.foldl (fun acc x => if x ∈ acc then acc else acc ++ [x]) []

/-- `Counter(l).items()`: each distinct element of `l` with its
multiplicity, in first-occurrence order. -/
def counterItems (l : List String) : List (String × ℕ) :=
  (firstOccs l).map fun t => (t, l.count t)

/-- The comparison used by `most_common`: sort by decreasing count. -/
def cntLE (a b : String × ℕ) : Bool := decide (b.2 ≤ a.2)

/-- `Counter(l).most_common(limit)`: the counter items sorted by
decreasing count with a stable sort, truncated to `limit` entries
(the documented behaviour of `heapq.nlargest`, which `most_common(n)`
uses: equivalent to a stable descending sort followed by `[:n]`). -/
def most_common (l : List String) (limit : ℕ) : List (String × ℕ) :=
  ((counterItems l).mergeSort cntLE).take limit

/-- The `tag_counts` value built in the Tag Spy tab of every variant. -/
def tag_counts (all_tags : List String) : List (String × ℕ) :=
  most_common all_tags 30

/-! ## Strategy engine (`ai_content_engine`) -/

/-- One element of the list returned by
`YouTubeTranscriptApi.get_transcript`: a dict whose `text` entry the code
reads (`t['text']`). -/
structure TranscriptSeg where
  text : String
deriving DecidableEq

/-- The transcript provider: models `YouTubeTranscriptApi.get_transcript`,
which either returns the segment list or raises. -/
abbrev TranscriptProvider := String → Except String (List TranscriptSeg)

/-- The completion provider: models `model.generate_content(prompt).text`,
which either returns the generated text or raises. -/
abbrev CompletionProvider := String → Except String String

/-- `" ".join([t['text'] for t in transcript_list])`. -/
def joinTexts (segs : List TranscriptSeg) : String :=
  String.intercalate " " (segs.map (·.text))

/-- A single-quote character, as used by Python `repr` of a string. -/
def pySquote : String := String.singleton (Char.ofNat 39)

/-- Python `repr` of a string (as rendered inside an f-string for a list
element); quoting is modelled, escaping of exotic characters is not. -/
def pyRepr (s : String) : String := pySquote ++ s ++ pySquote

/-- Python rendering `f"{tags}"` of a list of strings. -/
def pyListRepr (ts : List String) : String :=
  "[" ++ String.intercalate ", " (ts.map pyRepr) ++ "]"

/-- The fallback context string
`f"Video Title: {title}. Video Tags: {tags}"`. -/
def fallbackText (title : String) (tags : List String) : String :=
  "Video Title: " ++ title ++ ". Video Tags: " ++ pyListRepr tags

/-- The context-source label used when the transcript fetch succeeded. -/
def transcriptLabel : String := "Full Transcript"

/-- The context-source label used on the transcript fallback path. -/
def fallbackLabel : String := "Title & Metadata (No Captions Found)"

/-- Steps 1 of `ai_content_engine` (all variants): try the transcript
provider; on success join the segments and truncate to the variant's
character cap (`[:5000]` in `app.py`/`app1.py`, `[:8000]` in `app2.py`);
on any exception fall back to the title-and-tags rendering.  Returns the
pair `(context_source, transcript_text)`. -/
def resolveContext (cap : ℕ) (tp : TranscriptProvider) (video_id title : String)
    (tags : List String) : String × String :=
  match tp video_id with
  | .ok segs => (transcriptLabel, (joinTexts segs).take cap)
  | .error _ => (fallbackLabel, fallbackText title tags)

/-- The prompt template of `app.py` with the context source and context
text interpolated. -/
def mkPrompt (context_source transcript_text : String) : String :=
  "\n    Act as a Viral Content Strategist (MrBeast Style).\n    \n    SOURCE MATERIAL ("
    ++ context_source ++ "):\n    \"" ++ transcript_text ++ "...\"\n    \n    TASK:"
    ++ "\n    Analyze this content and generate a plan to RECREATE and OUTPERFORM it."
    ++ "\n    \n    OUTPUT FORMAT (Markdown):"
    ++ "\n    ### 🧠 1. The Psychology"
    ++ "\n    * **Why it went viral:** (Analyze the hook/pacing)"
    ++ "\n    * **The Gap:** (What was missing? How can we improve?)"
    ++ "\n    \n    ### 📝 2. The Golden Script Outline"
    ++ "\n    * **Hook (0:00-0:30):** [Visual + Verbal Hook]"
    ++ "\n    * **Body:** [3 Key value points]"
    ++ "\n    * **Retention Hack:** [Mid-video pattern interrupt]"
    ++ "\n    * **CTA:** [Specific Call to Action]"
    ++ "\n    \n    ### 🎨 3. Thumbnail Studio"
    ++ "\n    * **Idea 1:** [Visual description]"
    ++ "\n    * **Idea 2:** [Visual description]"
    ++ "\n    \n    ### ⚡ 4. Viral Hooks (Titles)"
    ++ "\n    * Give 3 clickbait-style alternative titles.\n    "

/-- The prompt template of `app2.py` with the context source and context
text interpolated. -/
def mkPrompt2 (context_source transcript_text : String) : String :=
  "\n        Act as a Viral Content Strategist.\n        SOURCE MATERIAL ("
    ++ context_source ++ "): \"" ++ transcript_text ++ "...\"\n        \n        TASK:"
    ++ " Analyze this content and generate a plan to RECREATE and OUTPERFORM it."
    ++ "\n        \n        OUTPUT FORMAT (Markdown):"
    ++ "\n        ### 🧠 1. The Psychology"
    ++ "\n        * **Why it went viral:** (Hook/Pacing)"
    ++ "\n        * **The Gap:** (What can be improved?)"
    ++ "\n        \n        ### 📝 2. The Golden Script Outline"
    ++ "\n        * **Hook (0:00-0:30):** [Visual + Verbal Hook]"
    ++ "\n        * **Body:** [Key value points]"
    ++ "\n        * **CTA:** [Call to Action]"
    ++ "\n        \n        ### 🎨 3. Thumbnail Studio"
    ++ "\n        * **Idea 1:** [Visual description]"
    ++ "\n        * **Idea 2:** [Visual description]"
    ++ "\n        \n        ### ⚡ 4. Viral Hooks"
    ++ "\n        * Give 3 clickbait-style alternative titles.\n        "

/-- `ai_content_engine` of `app.py` (and, with the same structure,
`app1.py`): resolve the context with cap 5000, build the prompt and call
the completion provider.  The call `model.generate_content(prompt)` is NOT
wrapped in a `try`, so a completion-provider exception propagates to the
caller; the result type is therefore `Except`. -/
def ai_content_engine (tp : TranscriptProvider) (cp : CompletionProvider)
    (video_id title : String) (tags : List String) : Except String (String × String) :=
  let ctx := resolveContext 5000 tp video_id title tags
  (cp (mkPrompt ctx.1 ctx.2)).map fun text => (text, ctx.1)

/-- `ai_content_engine` of `app2.py`: resolve the context with cap 8000,
then run the completion call inside `try/except`, returning
`(f"⚠️ AI Error: {str(e)}", "Error")` if the provider raises.  This
variant never raises, so its result type is a plain pair. -/
def ai_content_engine2 (tp : TranscriptProvider) (cp : CompletionProvider)
    (video_id title : String) (tags : List String) : String × String :=
  let ctx := resolveContext 8000 tp video_id title tags
  match cp (mkPrompt2 ctx.1 ctx.2) with
  | .ok text => (text, ctx.1)
  | .error e => ("⚠️ AI Error: " ++ e, "Error")

/-! ## Supporting lemmas about the rounding functions -/

theorem rhe_nonneg {q : ℚ} (hq : 0 ≤ q) : 0 ≤ rhe q := by
  have h0 : (0 : ℤ) ≤ ⌊q⌋ := Int.floor_nonneg.mpr hq
  unfold rhe
  rw [ratFloor_eq_floor]
  split_ifs <;> omega

theorem rhe_le_of_le {q : ℚ} {n : ℤ} (hqn : q ≤ (n : ℚ)) : rhe q ≤ n := by
  have hfl : ⌊q⌋ ≤ n := by
    have h := Int.floor_le_floor hqn
    rwa [Int.floor_intCast] at h
  have hlt : ¬ q - (⌊q⌋ : ℚ) < 1/2 → ⌊q⌋ + 1 ≤ n := by
    intro h1
    rcases lt_or_eq_of_le hfl with h | h
    · omega
    · exfalso
      apply h1
      have h2 : (⌊q⌋ : ℚ) ≤ q := Int.floor_le q
      have h3 : q ≤ (⌊q⌋ : ℚ) := by rw [h]; exact hqn
      have h4 : q - (⌊q⌋ : ℚ) = 0 := by linarith
      rw [h4]; norm_num
  unfold rhe
  rw [ratFloor_eq_floor]
  split_ifs with h1 h2 h3
  · exact hfl
  · exact hlt h1
  · exact hfl
  · exact hlt h1

theorem rhe_100 : rhe (100 : ℚ) = 100 := by with_unfolding_all decide

theorem round0_nonneg {q : ℚ} (h : 0 ≤ q) : 0 ≤ round0 q := by
  unfold round0; exact_mod_cast rhe_nonneg h

theorem round0_le_100 {q : ℚ} (h : q ≤ 100) : round0 q ≤ 100 := by
  unfold round0
  have h1 : rhe q ≤ (100 : ℤ) := rhe_le_of_le (by exact_mod_cast h)
  exact_mod_cast h1

theorem round0_100 : round0 (100 : ℚ) = 100 := by
  unfold round0; rw [rhe_100]; norm_num

theorem round2_nonneg {q : ℚ} (h : 0 ≤ q) : 0 ≤ round2 q := by
  unfold round2
  have h1 : (0 : ℤ) ≤ rhe (q * 100) := rhe_nonneg (by positivity)
  have h2 : (0 : ℚ) ≤ (rhe (q * 100) : ℚ) := by exact_mod_cast h1
  positivity

theorem round2_zero : round2 0 = 0 := by
  have h : rhe ((0 : ℚ) * 100) = 0 := by with_unfolding_all decide
  unfold round2; rw [h]; norm_num

/-! ## Supporting lemmas about the raw-score maximum -/

theorem le_foldl_max_init (l : List ScoredVideo) (b : ℚ) :
    b ≤ l.foldl (fun m v => max m v.virality_raw) b := by
  induction l generalizing b with
  | nil => simp
  | cons x xs ih => exact le_trans (le_max_left _ _) (ih (max b x.virality_raw))

theorem mem_le_foldl_max {v : ScoredVideo} {l : List ScoredVideo} (hv : v ∈ l) (b : ℚ) :
    v.virality_raw ≤ l.foldl (fun m v => max m v.virality_raw) b := by
  induction l generalizing b with
  | nil => cases hv
  | cons x xs ih =>
    rcases List.mem_cons.mp hv with h | h
    · subst h
      exact le_trans (le_max_right _ _) (le_foldl_max_init xs _)
    · exact ih h _

theorem foldl_max_attained (l : List ScoredVideo) (b : ℚ) :
    l.foldl (fun m v => max m v.virality_raw) b = b
      ∨ ∃ v ∈ l, l.foldl (fun m v => max m v.virality_raw) b = v.virality_raw := by
  induction l generalizing b with
  | nil => left; rfl
  | cons x xs ih =>
    rcases ih (max b x.virality_raw) with h | ⟨v, hv, hveq⟩
    · rcases max_choice b x.virality_raw with hm | hm
      · left; rw [List.foldl_cons, h, hm]
      · right; exact ⟨x, by simp, by rw [List.foldl_cons, h, hm]⟩
    · right; exact ⟨v, by simp [hv], by rw [List.foldl_cons]; exact hveq⟩

theorem maxRaw_nonneg (data : List ScoredVideo) : 0 ≤ maxRaw data :=
  le_foldl_max_init data 0

theorem le_maxRaw {v : ScoredVideo} {data : List ScoredVideo} (hv : v ∈ data) :
    v.virality_raw ≤ maxRaw data :=
  mem_le_foldl_max hv 0

theorem maxRaw_attained (data : List ScoredVideo) :
    maxRaw data = 0 ∨ ∃ v ∈ data, maxRaw data = v.virality_raw :=
  foldl_max_attained data 0

theorem scoreItem_raw_nonneg (rpm : ℚ) (item : ApiItem) :
    0 ≤ (scoreItem rpm item).virality_raw := by
  simp only [scoreItem]
  positivity

/-- Characterization of membership in the result rows of `get_market_data`. -/
theorem mem_market_cases {rpm : ℚ} {items : List ApiItem} {fv : FinalVideo}
    (h : fv ∈ (get_market_data rpm items).1) :
    ∃ v ∈ items.map (scoreItem rpm),
      fv.toScoredVideo = v ∧
      fv.virality_score = (if maxRaw (items.map (scoreItem rpm)) = 0 then none
        else some (round0 (v.virality_raw / maxRaw (items.map (scoreItem rpm)) * 100))) := by
  replace h : fv ∈ addScores (items.map (scoreItem rpm)) := h
  unfold addScores at h
  by_cases he : (items.map (scoreItem rpm)).isEmpty
  · rw [if_pos he] at h; cases h
  · rw [if_neg he] at h
    obtain ⟨v, hv, hgv⟩ := List.mem_map.mp h
    refine ⟨v, hv, ?_, ?_⟩ <;> rw [← hgv]

/-! ## Concrete response items used at concrete inputs below -/

/-- A response item with healthy statistics. -/
def itemA : ApiItem :=
  ⟨"vidA", "Alpha video", some 1000, some 50, some 10, ["x", "y"], "thA", "2024-05-01T10:00:00Z"⟩

/-- A response item with zero views, likes and comments. -/
def itemZ1 : ApiItem :=
  ⟨"vidZ1", "Zero one", some 0, some 0, some 0, [], "thZ1", "2024-05-02T10:00:00Z"⟩

/-- A second all-zero response item. -/
def itemZ2 : ApiItem :=
  ⟨"vidZ2", "Zero two", some 0, some 0, some 0, [], "thZ2", "2024-05-03T10:00:00Z"⟩

/-- A third all-zero response item. -/
def itemZ3 : ApiItem :=
  ⟨"vidZ3", "Zero three", some 0, some 0, some 0, [], "thZ3", "2024-05-04T10:00:00Z"⟩

/-- A fourth all-zero response item. -/
def itemZ4 : ApiItem :=
  ⟨"vidZ4", "Zero four", some 0, some 0, some 0, [], "thZ4", "2024-05-05T10:00:00Z"⟩

/-- A response item with views but no likes or comments. -/
def itemV : ApiItem :=
  ⟨"vidV", "Views only", some 1000, some 0, some 0, [], "thV", "2024-05-06T10:00:00Z"⟩

/-- A response item whose engagement ratio does not round exactly:
3 views, 1 like gives `(1+0)/3*100 = 100/3`. -/
def itemT : ApiItem :=
  ⟨"vidT", "Third", some 3, some 1, some 0, [], "thT", "2024-05-07T10:00:00Z"⟩

/-! ## Claims about the market pipeline -/

/-- Claim C8: for every input record sequence, the sequence of video
identifiers in the rows returned by `get_market_data` equals the sequence
of identifiers of the input items, in the same order: scoring and
normalization never reorder, and the result is never re-sorted by any
derived score. -/
theorem market_preserves_order (rpm : ℚ) (items : List ApiItem) :
    (get_market_data rpm items).1.map (fun fv => fv.video_id)
      = items.map (fun it => it.id) := by
  show (addScores (items.map (scoreItem rpm))).map _ = _
  unfold addScores
  by_cases he : (items.map (scoreItem rpm)).isEmpty
  · rw [if_pos he]
    rcases items with _ | ⟨x, xs⟩
    · rfl
    · simp at he
  · rw [if_neg he, List.map_map, List.map_map]
    rfl

/-- Claim C5 (amended part plus failing-input part): for every rpm > 0 and
every input, each produced row has nonnegative engagement and earnings,
and its virality score lies in [0, 100] whenever it is an actual number;
but on an all-zero-engagement input the produced virality score is the NaN
of `0.0/0.0` (modelled `none`), so the unconditional interval claim fails
there. -/
theorem market_invariants_and_nan :
    (∀ (rpm : ℚ), 0 < rpm → ∀ (items : List ApiItem),
      (get_market_data rpm items).1.Forall fun fv =>
        0 ≤ fv.engagement ∧ 0 ≤ fv.earnings ∧
          ∀ s, fv.virality_score = some s → 0 ≤ s ∧ s ≤ 100)
    ∧ (get_market_data 3 [itemZ4]).1.map (fun fv => fv.virality_score) = [none] := by
  constructor
  · intro rpm hrpm items
    rw [List.forall_iff_forall_mem]
    intro fv hfv
    obtain ⟨v, hv, hts, hscore⟩ := mem_market_cases hfv
    obtain ⟨item, hitem, hvi⟩ := List.mem_map.mp hv
    refine ⟨?_, ?_, ?_⟩
    · rw [hts, ← hvi]
      simp only [scoreItem]
      apply round2_nonneg
      split_ifs
      · positivity
      · exact le_refl 0
    · rw [hts, ← hvi]
      simp only [scoreItem]
      exact round2_nonneg (mul_nonneg (by positivity) (le_of_lt hrpm))
    · intro s hs
      rw [hscore] at hs
      by_cases hm : maxRaw (items.map (scoreItem rpm)) = 0
      · rw [if_pos hm] at hs; cases hs
      · rw [if_neg hm] at hs
        have hs' : s = round0 (v.virality_raw / maxRaw (items.map (scoreItem rpm)) * 100) :=
          (Option.some.injEq _ _ ▸ hs).symm
        have hraw : 0 ≤ v.virality_raw := by
          rw [← hvi]; exact scoreItem_raw_nonneg _ _
        have hle : v.virality_raw ≤ maxRaw (items.map (scoreItem rpm)) := le_maxRaw hv
        have hmpos : 0 < maxRaw (items.map (scoreItem rpm)) :=
          lt_of_le_of_ne (maxRaw_nonneg _) (Ne.symm hm)
        have hval0 : 0 ≤ v.virality_raw / maxRaw (items.map (scoreItem rpm)) * 100 := by
          positivity
        have hval100 : v.virality_raw / maxRaw (items.map (scoreItem rpm)) * 100 ≤ 100 := by
          have h1 : v.virality_raw / maxRaw (items.map (scoreItem rpm)) ≤ 1 :=
            (div_le_one hmpos).mpr hle
          calc v.virality_raw / maxRaw (items.map (scoreItem rpm)) * 100
              ≤ 1 * 100 := by
                exact mul_le_mul_of_nonneg_right h1 (by norm_num)
            _ = 100 := by norm_num
        rw [hs']
        exact ⟨round0_nonneg hval0, round0_le_100 hval100⟩
  · norm_num [get_market_data, addScores, maxRaw, scoreItem, itemZ4]

/-- Claim C4 (counterexample): on an all-zero input the sole record attains
the global maximum raw score, yet its virality score is the NaN `none`,
not 100. -/
theorem maxRecord_not_100_on_allZero :
    ¬ ((get_market_data 3 [itemZ3]).1.Forall fun fv =>
        fv.virality_raw = maxRaw ([itemZ3].map (scoreItem 3)) →
          fv.virality_score = some 100) := by
  norm_num [List.Forall, get_market_data, addScores, maxRaw, scoreItem, itemZ3]
  simp

/-- Claim C4 (amended): whenever the global maximum raw virality score is
nonzero, some produced row attains it, and every row attaining it receives
virality score exactly 100. -/
theorem maxRecord_scores_100_of_maxNonzero (rpm : ℚ) (items : List ApiItem)
    (hm : maxRaw (items.map (scoreItem rpm)) ≠ 0) :
    (∃ fv ∈ (get_market_data rpm items).1,
        fv.virality_raw = maxRaw (items.map (scoreItem rpm)))
    ∧ ((get_market_data rpm items).1.Forall fun fv =>
        fv.virality_raw = maxRaw (items.map (scoreItem rpm)) →
          fv.virality_score = some 100) := by
  constructor
  · rcases maxRaw_attained (items.map (scoreItem rpm)) with h | ⟨v, hv, hveq⟩
    · exact absurd h hm
    · have hne : ¬ (items.map (scoreItem rpm)).isEmpty := by
        intro hemp
        rw [List.isEmpty_iff.mp hemp] at hv
        cases hv
      refine ⟨⟨v, if maxRaw (items.map (scoreItem rpm)) = 0 then none
        else some (round0 (v.virality_raw / maxRaw (items.map (scoreItem rpm)) * 100))⟩,
        ?_, hveq.symm⟩
      show _ ∈ addScores (items.map (scoreItem rpm))
      unfold addScores
      rw [if_neg hne]
      exact List.mem_map_of_mem _ hv
  · rw [List.forall_iff_forall_mem]
    intro fv hfv heq
    obtain ⟨v, hv, hts, hscore⟩ := mem_market_cases hfv
    have hraw : v.virality_raw = maxRaw (items.map (scoreItem rpm)) := by
      rw [← heq, hts]
    rw [hscore, if_neg hm, hraw, div_self hm, one_mul, round0_100]

/-- Claim C7 (counterexample): a record with 1000 views and no likes or
comments has engagement 0 although its view count is nonzero, refuting
"engagement equals 0 exactly when views = 0". -/
theorem engagement_zero_with_views_cex :
    ¬ ((get_market_data 3 [itemV]).1.Forall fun fv =>
        fv.engagement = 0 → fv.views = 0) := by
  norm_num [List.Forall, get_market_data, addScores, maxRaw, scoreItem, itemV, round2_zero]

/-- Claim C7 (amended): engagement is always nonnegative, and zero views
force engagement 0; the converse direction fails (see the counterexample). -/
theorem engagement_nonneg_zero_views (rpm : ℚ) (items : List ApiItem) :
    (get_market_data rpm items).1.Forall fun fv =>
      0 ≤ fv.engagement ∧ (fv.views = 0 → fv.engagement = 0) := by
  rw [List.forall_iff_forall_mem]
  intro fv hfv
  obtain ⟨v, hv, hts, _⟩ := mem_market_cases hfv
  obtain ⟨item, hitem, hvi⟩ := List.mem_map.mp hv
  constructor
  · rw [hts, ← hvi]
    simp only [scoreItem]
    apply round2_nonneg
    split_ifs
    · positivity
    · exact le_refl 0
  · intro h0
    rw [hts, ← hvi] at h0 ⊢
    simp only [scoreItem] at h0 ⊢
    rw [h0]
    norm_num [round2_zero]

/-- Claim C2 (failing-input evaluation): on a non-empty input whose records
all have zero views, likes and comments, the global maximum raw score is 0,
the normalization is still executed, and every virality score is the NaN of
`0.0/0.0` (modelled `none`) — not 0 as the specified guard would produce. -/
theorem allZero_virality_nan :
    (get_market_data 3 [itemZ1, itemZ2]).1.map
        (fun fv => (fv.virality_raw, fv.virality_score))
      = [(0, none), (0, none)] := by
  norm_num [get_market_data, addScores, maxRaw, scoreItem, itemZ1, itemZ2]

set_option maxRecDepth 2000 in
/-- Claim C10: the engagement and earnings stored in each row are the
formula results rounded to 2 decimal places, not the exact values; at
3 views and 1 like the stored engagement 33.33 differs from 100/3. -/
theorem metrics_rounded_two_dp :
    (∀ (rpm : ℚ) (item : ApiItem),
      (scoreItem rpm item).engagement
        = round2 (if 0 < item.viewCount.getD 0
            then ((item.likeCount.getD 0 : ℚ) + (item.commentCount.getD 0 : ℚ))
              / (item.viewCount.getD 0 : ℚ) * 100 else 0)
      ∧ (scoreItem rpm item).earnings
        = round2 ((item.viewCount.getD 0 : ℚ) / 1000 * rpm))
    ∧ (scoreItem 5 itemT).engagement
        ≠ ((itemT.likeCount.getD 0 : ℚ) + (itemT.commentCount.getD 0 : ℚ))
            / (itemT.viewCount.getD 0 : ℚ) * 100 := by
  refine ⟨fun rpm item => ⟨rfl, rfl⟩, ?_⟩
  have h : rhe ((10000 : ℚ)/3) = 3333 := by with_unfolding_all decide
  have he : (scoreItem 5 itemT).engagement = round2 ((1 : ℚ)/3 * 100) := by
    norm_num [scoreItem, itemT]
  rw [he]
  have harg : (1 : ℚ)/3 * 100 * 100 = (10000 : ℚ)/3 := by ring
  rw [round2, harg, h]
  norm_num [itemT]

/-! ## Claims about the strategy engine -/

theorem string_take_length_le (s : String) (n : ℕ) : (s.take n).length ≤ n := by
  rw [String.take_eq]
  show (s.1.take n).length ≤ n
  rw [List.length_take]
  exact min_le_left _ _

/-- A transcript provider that always fails. -/
def tpFail : TranscriptProvider := fun _ => Except.error "no captions"

/-- A transcript provider that always succeeds with two segments. -/
def tpOk : TranscriptProvider := fun _ => Except.ok [⟨"hello"⟩, ⟨"world"⟩]

/-- A completion provider that always fails. -/
def cpFail : CompletionProvider := fun _ => Except.error "quota exceeded"

/-- A completion provider that always succeeds. -/
def cpOk : CompletionProvider := fun _ => Except.ok "strategy text"

/-- Claim C3: when the transcript provider fails, both engine variants
continue on the fallback path: the context source becomes the fallback
label, the context string embeds the supplied title, and the fetch error
is never propagated — the result depends only on the completion provider. -/
theorem transcriptFailure_fallback (v t : String) (tags : List String)
    (tp : TranscriptProvider) (e : String) (hf : tp v = Except.error e)
    (cp : CompletionProvider) :
    resolveContext 5000 tp v t tags = (fallbackLabel, fallbackText t tags)
    ∧ resolveContext 8000 tp v t tags = (fallbackLabel, fallbackText t tags)
    ∧ (∃ pre post, fallbackText t tags = pre ++ t ++ post)
    ∧ ai_content_engine tp cp v t tags
        = (cp (mkPrompt fallbackLabel (fallbackText t tags))).map
            (fun text => (text, fallbackLabel))
    ∧ ai_content_engine2 tp cp v t tags
        = (match cp (mkPrompt2 fallbackLabel (fallbackText t tags)) with
            | .ok text => (text, fallbackLabel)
            | .error err => ("⚠️ AI Error: " ++ err, "Error")) := by
  have h5 : resolveContext 5000 tp v t tags = (fallbackLabel, fallbackText t tags) := by
    unfold resolveContext; rw [hf]
  have h8 : resolveContext 8000 tp v t tags = (fallbackLabel, fallbackText t tags) := by
    unfold resolveContext; rw [hf]
  refine ⟨h5, h8,
    ⟨"Video Title: ", ". Video Tags: " ++ pyListRepr tags, ?_⟩, ?_, ?_⟩
  · unfold fallbackText
    rw [String.append_assoc]
  · simp only [ai_content_engine, h5]
  · simp only [ai_content_engine2, h8]

/-- Claim C3 (witness): the fallback behaviour at a concrete failing
transcript provider and a concrete completion provider. -/
theorem transcriptFailure_fallback_witness :
    resolveContext 5000 tpFail "vidW" "Witness title" ["t1"]
        = (fallbackLabel, fallbackText "Witness title" ["t1"])
    ∧ resolveContext 8000 tpFail "vidW" "Witness title" ["t1"]
        = (fallbackLabel, fallbackText "Witness title" ["t1"])
    ∧ (∃ pre post, fallbackText "Witness title" ["t1"] = pre ++ "Witness title" ++ post)
    ∧ ai_content_engine tpFail cpOk "vidW" "Witness title" ["t1"]
        = (cpOk (mkPrompt fallbackLabel (fallbackText "Witness title" ["t1"]))).map
            (fun text => (text, fallbackLabel))
    ∧ ai_content_engine2 tpFail cpOk "vidW" "Witness title" ["t1"]
        = (match cpOk (mkPrompt2 fallbackLabel (fallbackText "Witness title" ["t1"])) with
            | .ok text => (text, fallbackLabel)
            | .error err => ("⚠️ AI Error: " ++ err, "Error")) :=
  transcriptFailure_fallback "vidW" "Witness title" ["t1"] tpFail "no captions" rfl cpOk

/-- Claim C9: when the transcript provider succeeds, the context string is
the space-joined concatenation of all segment texts truncated to the
variant's character cap, its length never exceeds the cap, and the engine
embeds exactly this truncated string in the prompt sent to the completion
provider. -/
theorem transcript_context_truncated (v t : String) (tags : List String)
    (tp : TranscriptProvider) (segs : List TranscriptSeg)
    (h : tp v = Except.ok segs) (cp : CompletionProvider) :
    resolveContext 5000 tp v t tags = (transcriptLabel, (joinTexts segs).take 5000)
    ∧ ((joinTexts segs).take 5000).length ≤ 5000
    ∧ resolveContext 8000 tp v t tags = (transcriptLabel, (joinTexts segs).take 8000)
    ∧ ((joinTexts segs).take 8000).length ≤ 8000
    ∧ ai_content_engine tp cp v t tags
        = (cp (mkPrompt transcriptLabel ((joinTexts segs).take 5000))).map
            (fun text => (text, transcriptLabel)) := by
  have h5 : resolveContext 5000 tp v t tags
      = (transcriptLabel, (joinTexts segs).take 5000) := by
    unfold resolveContext; rw [h]
  have h8 : resolveContext 8000 tp v t tags
      = (transcriptLabel, (joinTexts segs).take 8000) := by
    unfold resolveContext; rw [h]
  refine ⟨h5, ?_, h8, ?_, ?_⟩
  · exact string_take_length_le (joinTexts segs) 5000
  · exact string_take_length_le (joinTexts segs) 8000
  · simp only [ai_content_engine, h5]

/-- Claim C9 (witness): the truncation behaviour at a concrete succeeding
transcript provider. -/
theorem transcript_context_truncated_witness :
    resolveContext 5000 tpOk "vidW3" "W3" []
        = (transcriptLabel, (joinTexts [⟨"hello"⟩, ⟨"world"⟩]).take 5000)
    ∧ ((joinTexts [⟨"hello"⟩, ⟨"world"⟩]).take 5000).length ≤ 5000
    ∧ resolveContext 8000 tpOk "vidW3" "W3" []
        = (transcriptLabel, (joinTexts [⟨"hello"⟩, ⟨"world"⟩]).take 8000)
    ∧ ((joinTexts [⟨"hello"⟩, ⟨"world"⟩]).take 8000).length ≤ 8000
    ∧ ai_content_engine tpOk cpOk "vidW3" "W3" []
        = (cpOk (mkPrompt transcriptLabel ((joinTexts [⟨"hello"⟩, ⟨"world"⟩]).take 5000))).map
            (fun text => (text, transcriptLabel)) :=
  transcript_context_truncated "vidW3" "W3" [] tpOk [⟨"hello"⟩, ⟨"world"⟩] rfl cpOk

/-- Claim C1 (counterexample): in the `app.py` variant a failing completion
provider makes `ai_content_engine` raise (the exception propagates as
`Except.error`); it does not return any strategy document at all, let alone
one labelled `Error`. -/
theorem completionFailure_raises_in_app :
    ai_content_engine tpOk cpFail "vidC" "Gamma" [] = Except.error "quota exceeded"
    ∧ ∀ r : String × String,
        ai_content_engine tpOk cpFail "vidC" "Gamma" [] ≠ Except.ok r := by
  refine ⟨rfl, fun r h => ?_⟩
  rw [show ai_content_engine tpOk cpFail "vidC" "Gamma" [] = Except.error "quota exceeded"
    from rfl] at h
  exact Except.noConfusion h

/-- Claim C1 (amended): in the `app2.py` variant, for every input and every
completion provider that raises on every call, `ai_content_engine` does not
raise: it returns the context-source label `Error` and a non-empty error
message payload. -/
theorem completionFailure_contained_app2 (v t : String) (tags : List String)
    (tp : TranscriptProvider) (cp : CompletionProvider)
    (hcp : ∀ p, ∃ e, cp p = Except.error e) :
    (ai_content_engine2 tp cp v t tags).2 = "Error"
    ∧ 0 < (ai_content_engine2 tp cp v t tags).1.length := by
  obtain ⟨e, he⟩ := hcp (mkPrompt2 (resolveContext 8000 tp v t tags).1
    (resolveContext 8000 tp v t tags).2)
  have hres : ai_content_engine2 tp cp v t tags = ("⚠️ AI Error: " ++ e, "Error") := by
    simp only [ai_content_engine2, he]
  rw [hres]
  refine ⟨rfl, ?_⟩
  rw [String.length_append]
  have h13 : 0 < ("⚠️ AI Error: " : String).length := by decide
  omega

/-- Claim C1 (witness): the contained failure at concrete failing
providers. -/
theorem completionFailure_contained_app2_witness :
    (ai_content_engine2 tpFail cpFail "vidW2" "Wtitle" []).2 = "Error"
    ∧ 0 < (ai_content_engine2 tpFail cpFail "vidW2" "Wtitle" []).1.length :=
  completionFailure_contained_app2 "vidW2" "Wtitle" [] tpFail cpFail
    (fun _ => ⟨"quota exceeded", rfl⟩)


/-! ## Claims about the tag frequencies -/

theorem cntLE_trans : ∀ (a b c : String × ℕ), cntLE a b → cntLE b c → cntLE a c := by
  intro a b c hab hbc
  simp only [cntLE, decide_eq_true_eq] at *
  omega

theorem cntLE_total : ∀ (a b : String × ℕ), cntLE a b || cntLE b a := by
  intro a b
  simp only [cntLE, Bool.or_eq_true, decide_eq_true_eq]
  omega

theorem pair_sublist_or {α : Type} {a b : α} {l : List α}
    (ha : a ∈ l) (hb : b ∈ l) (hab : a ≠ b) : [a, b].Sublist l ∨ [b, a].Sublist l := by
  induction l with
  | nil => cases ha
  | cons x xs ih =>
    rcases List.mem_cons.mp ha with rfl | ha'
    · have hb' : b ∈ xs := by
        rcases List.mem_cons.mp hb with rfl | h
        · exact absurd rfl hab
        · exact h
      left
      exact List.Sublist.cons₂ _ (List.singleton_sublist.mpr hb')
    · rcases List.mem_cons.mp hb with rfl | hb'
      · right
        exact List.Sublist.cons₂ _ (List.singleton_sublist.mpr ha')
      · rcases ih ha' hb' with h | h
        · left; exact h.cons x
        · right; exact h.cons x

theorem pair_sublist_antisymm {α : Type} {a b : α} {l : List α}
    (hn : l.Nodup) (h1 : [a, b].Sublist l) (h2 : [b, a].Sublist l) : a = b := by
  induction l with
  | nil => cases h1
  | cons x xs ih =>
    rcases List.nodup_cons.mp hn with ⟨hx, hn'⟩
    cases h1 with
    | cons _ h1' =>
      cases h2 with
      | cons _ h2' => exact ih hn' h1' h2'
      | cons₂ h2' => exact absurd (h1'.subset (by simp)) hx
    | cons₂ h1' =>
      cases h2 with
      | cons _ h2' => exact absurd (h2'.subset (by simp)) hx
      | cons₂ h2' => rfl

theorem mem_firstOccs_foldl (l : List String) (acc : List String) (a : String) :
    a ∈ l.foldl (fun acc x => if x ∈ acc then acc else acc ++ [x]) acc
      ↔ a ∈ acc ∨ a ∈ l := by
  induction l generalizing acc with
  | nil => simp
  | cons x xs ih =>
    rw [List.foldl_cons, ih, List.mem_cons]
    by_cases hx : x ∈ acc
    · rw [if_pos hx]
      constructor
      · rintro (h | h)
        · exact Or.inl h
        · exact Or.inr (Or.inr h)
      · rintro (h | rfl | h)
        · exact Or.inl h
        · exact Or.inl hx
        · exact Or.inr h
    · rw [if_neg hx]
      simp only [List.mem_append, List.mem_singleton]
      tauto

theorem mem_firstOccs (l : List String) (a : String) :
    a ∈ firstOccs l ↔ a ∈ l := by
  unfold firstOccs
  rw [mem_firstOccs_foldl]
  simp

theorem nodup_firstOccs_foldl (l : List String) (acc : List String) (hacc : acc.Nodup) :
    (l.foldl (fun acc x => if x ∈ acc then acc else acc ++ [x]) acc).Nodup := by
  induction l generalizing acc with
  | nil => exact hacc
  | cons x xs ih =>
    rw [List.foldl_cons]
    by_cases hx : x ∈ acc
    · rw [if_pos hx]; exact ih _ hacc
    · rw [if_neg hx]
      refine ih _ ?_
      rw [List.nodup_append]
      refine ⟨hacc, List.nodup_singleton x, ?_⟩
      intro a ha hax
      rw [List.mem_singleton] at hax
      exact hx (hax ▸ ha)

theorem nodup_firstOccs (l : List String) : (firstOccs l).Nodup :=
  nodup_firstOccs_foldl l [] List.nodup_nil

theorem mem_counterItems {l : List String} {a : String × ℕ} (h : a ∈ counterItems l) :
    a.1 ∈ firstOccs l ∧ a = (a.1, l.count a.1) := by
  obtain ⟨t, ht, rfl⟩ := List.mem_map.mp h
  exact ⟨ht, rfl⟩

theorem nodup_counterItems (l : List String) : (counterItems l).Nodup := by
  unfold counterItems
  refine List.Nodup.map ?_ (nodup_firstOccs l)
  intro t1 t2 h
  exact (Prod.ext_iff.mp h).1

/-- Claim C6: for every tag multiset and every limit, the output of
`most_common` has length at most `limit`, is sorted in descending order of
count, and entries with equal counts appear in first-occurrence order of
the tag (i.e. the tags of any tied pair occur in the same order in
`firstOccs`, the first-occurrence ordering of the flattened multiset). -/
theorem most_common_spec (l : List String) (limit : ℕ) :
    (most_common l limit).length ≤ limit
    ∧ (most_common l limit).Pairwise (fun a b => b.2 ≤ a.2)
    ∧ ∀ a b : String × ℕ, [a, b].Sublist (most_common l limit) → a.2 = b.2 →
        [a.1, b.1].Sublist (firstOccs l) := by
  have hsorted := List.sorted_mergeSort cntLE_trans cntLE_total (counterItems l)
  refine ⟨?_, ?_, ?_⟩
  · unfold most_common
    rw [List.length_take]
    exact min_le_left _ _
  · unfold most_common
    refine List.Pairwise.sublist (List.take_sublist _ _) ?_
    exact hsorted.imp fun h => of_decide_eq_true h
  · intro a b hsub heq
    have hsub' : [a, b].Sublist ((counterItems l).mergeSort cntLE) :=
      hsub.trans (List.take_sublist _ _)
    have hmemA : a ∈ counterItems l :=
      List.mem_mergeSort.mp (hsub'.subset (by simp))
    have hmemB : b ∈ counterItems l :=
      List.mem_mergeSort.mp (hsub'.subset (by simp))
    have hnodupS : ((counterItems l).mergeSort cntLE).Nodup :=
      (List.mergeSort_perm (counterItems l) cntLE).nodup_iff.mpr (nodup_counterItems l)
    have hab : a ≠ b := by
      rintro rfl
      exact List.nodup_iff_sublist.mp hnodupS a hsub'
    obtain ⟨htA, haA⟩ := mem_counterItems hmemA
    obtain ⟨htB, haB⟩ := mem_counterItems hmemB
    have htab : a.1 ≠ b.1 := by
      intro h1
      apply hab
      rw [haA, haB, h1]
    rcases pair_sublist_or htA htB htab with h | h
    · exact h
    · exfalso
      have hmap := h.map (fun t => (t, l.count t))
      simp only [List.map_cons, List.map_nil] at hmap
      rw [← haA, ← haB] at hmap
      have hpair : List.Pairwise (fun x y => cntLE x y = true) [b, a] :=
        List.pairwise_pair.mpr (decide_eq_true heq.le)
      have hstable : [b, a].Sublist ((counterItems l).mergeSort cntLE) :=
        List.sublist_mergeSort cntLE_trans cntLE_total hpair hmap
      exact hab (pair_sublist_antisymm hnodupS hsub' hstable)

/-- Claim C6 (witness): the tie-order conclusion at a concrete two-tag
multiset with equal counts. -/
theorem most_common_spec_witness :
    [("tag1" : String), "tag2"].Sublist (firstOccs ["tag1", "tag2"]) := by
  have hci : counterItems ["tag1", "tag2"] = [(("tag1" : String), 1), ("tag2", 1)] := by decide
  have hsorted : List.Pairwise (fun x y => cntLE x y = true)
      [(("tag1" : String), 1), ("tag2", 1)] :=
    List.pairwise_pair.mpr (by decide)
  have hmc : most_common ["tag1", "tag2"] 2 = [(("tag1" : String), 1), ("tag2", 1)] := by
    unfold most_common
    rw [hci, List.mergeSort_of_sorted hsorted]
    rfl
  exact (most_common_spec ["tag1", "tag2"] 2).2.2 ("tag1", 1) ("tag2", 1)
    (by rw [hmc]) rfl

/-- Claim C4 (witness): the maximum record scores exactly 100 at a concrete
input whose maximum raw score is nonzero. -/
theorem maxRecord_scores_100_witness :
    (∃ fv ∈ (get_market_data 2 [itemA]).1,
        fv.virality_raw = maxRaw ([itemA].map (scoreItem 2)))
    ∧ ((get_market_data 2 [itemA]).1.Forall fun fv =>
        fv.virality_raw = maxRaw ([itemA].map (scoreItem 2)) →
          fv.virality_score = some 100) :=
  maxRecord_scores_100_of_maxNonzero 2 [itemA]
    (by norm_num [maxRaw, scoreItem, itemA, max_def])

/-- Claim C5 (witness): the invariants at a concrete positive rpm and a
concrete input. -/
theorem market_invariants_witness :
    (get_market_data 4 [itemA]).1.Forall fun fv =>
      0 ≤ fv.engagement ∧ 0 ≤ fv.earnings ∧
        ∀ s, fv.virality_score = some s → 0 ≤ s ∧ s ≤ 100 :=
  market_invariants_and_nan.1 4 (by norm_num) [itemA]

/-- Claim C7 (witness): the amended engagement property at a concrete
input. -/
theorem engagement_nonneg_zero_views_witness :
    (get_market_data 6 [itemV]).1.Forall fun fv =>
      0 ≤ fv.engagement ∧ (fv.views = 0 → fv.engagement = 0) :=
  engagement_nonneg_zero_views 6 [itemV]
